import Mathlib

/-!
Shallow embedding of the two scripts of the `TGP_Asteroids2_2025` repository
(`obsastro_quasar_module.py` and `astrometryExercise.py`) and proofs of the
frozen claims about them.

Numeric data is modelled over `ℚ` (the code computes with machine floats; the
claims under study are structural, about windowing, validation, shapes and
algebraic residual relations, so exact rational arithmetic is the faithful
idealisation).  The external numerical library's fitting routines
(`np.polyfit`, `scipy.optimize.curve_fit`) are consumed by the scripts as
black boxes, so they are modelled as function parameters; a separate
predicate `IsLSPolyFit` states, following the spec's words, that a returned
coefficient vector is a least-squares fit, and theorems that speak about
"the least-squares polynomial" take that predicate as a hypothesis on the
parameter.
-/

/-- Normalisation of a Python slice endpoint against a sequence length:
negative indices count from the end, and endpoints clamp to `[0, n]`. -/
def pyIdx (n : Nat) (a : Int) : Nat :=
  (if a < 0 then max ((n : Int) + a) 0 else min a n).toNat

/-- Python slice semantics `xs[a:b]` (step 1) for integer bounds, including
negative indices and clamping, as used by `numpy` 1-D slicing. -/
def pySlice {α : Type} (xs : List α) (a b : Int) : List α :=
  (xs.drop (pyIdx xs.length a)).take (pyIdx xs.length b - pyIdx xs.length a)

/-- Python `int()` on a rational: truncation toward zero (floor for
nonnegative arguments, ceiling for negative ones). -/
def pyInt (q : ℚ) : Int := if 0 ≤ q then q.floor else q.ceil

/-- `np.arange(N)` as a list of rationals. -/
def pyArangeN (N : Nat) : List ℚ := (List.range N).map (fun i : Nat => (i : ℚ))

/-- `np.arange(a, b)` for integer bounds, as a list of rationals. -/
def pyArange (a b : Int) : List ℚ :=
  (List.range (b - a).toNat).map (fun i : Nat => ((a + i : Int) : ℚ))

/-- `np.poly1d(coeffs)` evaluation: Horner scheme, highest-degree
coefficient first, matching `np.polyfit`'s coefficient order. -/
def polyEval (coeffs : List ℚ) (x : ℚ) : ℚ :=
  coeffs.foldl (fun acc a => acc * x + a) 0

/-- Sum of squared residuals of the polynomial `coeffs` against the data
`(xs, ys)` (pairs beyond the shorter list ignored, as `zip` does). -/
def sumSqErr (xs ys coeffs : List ℚ) : ℚ :=
  ((xs.zip ys).map (fun p => (p.2 - polyEval coeffs p.1) ^ 2)).sum

/-- Spec-side characterisation of `np.polyfit(xs, ys, deg)`: the returned
coefficient vector has `deg + 1` entries and minimises the sum of squared
residuals among all such coefficient vectors. -/
def IsLSPolyFit (deg : Nat) (xs ys coeffs : List ℚ) : Prop :=
  coeffs.length = deg + 1 ∧
    ∀ other : List ℚ, other.length = deg + 1 →
      sumSqErr xs ys coeffs ≤ sumSqErr xs ys other

/-- Abstract polynomial fitter standing for the library routine
`np.polyfit` (arguments: x data, y data, degree). -/
def PolyFit : Type := List ℚ → List ℚ → Nat → List ℚ

theorem sumSqErr_nonneg (xs ys coeffs : List ℚ) : 0 ≤ sumSqErr xs ys coeffs := by
  apply List.sum_nonneg
  intro a ha
  simp only [List.mem_map] at ha
  obtain ⟨p, _, rfl⟩ := ha
  positivity

/-! ## The background estimator (`background`, quasar module lines 41-70) -/

/-- The boundary validation of `background` (source line 50):
`y1<y2<y3<y4`, `0<=y1<=63`, `0<=y2<=63`, `73<=y3<=135`, `73<=y4<=135`.
The row bounds are hardcoded numerals in the source, independent of the
image. -/
def bgValid (y1 y2 y3 y4 : Int) : Prop :=
  (y1 < y2 ∧ y2 < y3 ∧ y3 < y4) ∧
    (0 ≤ y1 ∧ y1 ≤ 63) ∧ (0 ≤ y2 ∧ y2 ≤ 63) ∧
    (73 ≤ y3 ∧ y3 ≤ 135) ∧ (73 ≤ y4 ∧ y4 ≤ 135)

instance (y1 y2 y3 y4 : Int) : Decidable (bgValid y1 y2 y3 y4) := by
  unfold bgValid; infer_instance

/-- The exception message raised by `background`'s validation (line 51). -/
def bgErrMsg : String :=
  "Error: y-values are inconsistent, make sure that they are given in increasing order and that they are not out of bounds."

/-- Message standing for the `IndexError` numpy raises on `image[:,col]`
with `col` out of range (reached when the image has more rows than
columns, since the loop runs over `max(image.shape)`). -/
def bgIxMsg : String := "IndexError: index out of bounds for axis 1"

/-- Message standing for the `TypeError` `np.polyfit` raises when its x and
y data have different lengths (reached when the bands fall outside the
image's rows, so the slices come up short). -/
def bgTyMsg : String := "TypeError: expected x and y to have same length"

/-- `image[:,col]` of a row-major image, `0` for ragged overruns (a numpy
array is rectangular, so on rectangular input this is exact). -/
def getColumn (image : List (List ℚ)) (col : Nat) : List ℚ :=
  image.map (fun row => row.getD col 0)

/-- Median of three rationals. -/
def med3 (a b c : ℚ) : ℚ := max (min a b) (min (max a b) c)

/-- `np.median([a, b, c], axis=0)`: elementwise median of three columns. -/
def medCols (a b c : List ℚ) : List ℚ :=
  List.zipWith (fun x yz => med3 x yz.1 yz.2) a (b.zip c)

/-- The x sample coordinates of the background fit (source line 56):
`np.concatenate((np.arange(y1,y2), np.arange(y3,y4)))`. -/
def bgXs (y1 y2 y3 y4 : Int) : List ℚ := pyArange y1 y2 ++ pyArange y3 y4

/-- The y samples fed to the column fit (source lines 59-64): the column
itself for the two columns on each end (`col<=1 or col>=N-2`), the
elementwise median of the column and its two neighbours otherwise, then
restricted to the two background bands. -/
def backgroundColData (image : List (List ℚ)) (N : Nat) (y1 y2 y3 y4 : Int)
    (col : Nat) : List ℚ :=
  let column :=
    if col ≤ 1 ∨ N - 2 ≤ col then getColumn image col
    else medCols (getColumn image (col - 1)) (getColumn image col)
      (getColumn image (col + 1))
  pySlice column y1 y2 ++ pySlice column y3 y4

/-- One iteration of `background`'s column loop (source lines 58-69): fit a
degree-2 polynomial to the band data of the column and evaluate it at the
row indices `0..n-1`; errors where numpy would raise. -/
def backgroundColumn (pf : PolyFit) (image : List (List ℚ))
    (y1 y2 y3 y4 : Int) (col : Nat) : Except String (List ℚ) :=
  let rows := image.length
  let cols := (image.headD []).length
  let n := min rows cols
  let N := max rows cols
  if cols ≤ col then .error bgIxMsg
  else
    let bkg := backgroundColData image N y1 y2 y3 y4 col
    let x := bgXs y1 y2 y3 y4
    if x.length ≠ bkg.length then .error bgTyMsg
    else .ok ((List.range n).map (fun i : Nat => polyEval (pf x bkg 2) (i : ℚ)))

/-- Runs a per-column computation over the given column indices,
propagating the first error, as the Python `for` loop propagates the first
exception. -/
def collectCols (f : Nat → Except String (List ℚ)) :
    List Nat → Except String (List (List ℚ))
  | [] => .ok []
  | c :: cs =>
    match f c with
    | .error e => .error e
    | .ok v =>
      match collectCols f cs with
      | .error e => .error e
      | .ok vs => .ok (v :: vs)

/-- The background estimator (`background`, source lines 41-70): validate
the boundaries, then for each of `N = max(image.shape)` columns fit a
degree-2 polynomial to the two background bands and write its values at
row indices `0..n-1` (`n = min(image.shape)`) into an output array started
as `np.zeros_like(image)`. -/
def background (pf : PolyFit) (image : List (List ℚ)) (y1 y2 y3 y4 : Int) :
    Except String (List (List ℚ)) :=
  if ¬ bgValid y1 y2 y3 y4 then .error bgErrMsg
  else
    let rows := image.length
    let cols := (image.headD []).length
    let n := min rows cols
    let N := max rows cols
    match collectCols (backgroundColumn pf image y1 y2 y3 y4) (List.range N) with
    | .error e => .error e
    | .ok fits =>
      .ok ((List.range rows).map (fun i => (List.range cols).map (fun c =>
        if i < n then (fits.getD c []).getD i 0 else 0)))

/-! ## Centroid refinement (`gauss`, `fit_gaussian_centroid`,
`centroid_peak`, `get_centroid_locations`, quasar module lines 72-107) -/

/-- Abstract nonlinear least-squares solver standing for
`scipy.optimize.curve_fit` specialised to a 4-parameter model
(arguments: model, x data, y data, initial guess `p0`;
result: the 4 fitted parameters, in `p0`'s order). -/
def CurveFit : Type :=
  (ℚ → ℚ × ℚ × ℚ × ℚ → ℚ) → List ℚ → List ℚ → ℚ × ℚ × ℚ × ℚ → ℚ × ℚ × ℚ × ℚ

/-- The Gaussian model (source lines 72-76):
`H + A * exp(-(x - x0)^2 / (2 * sigma^2))`, with the transcendental
exponential abstracted as a parameter `expF` (its pointwise values never
matter to the claims, which quantify over the solver). Parameter order
`(H, A, x0, sigma)`. -/
def gauss (expF : ℚ → ℚ) (x : ℚ) (p : ℚ × ℚ × ℚ × ℚ) : ℚ :=
  p.1 + p.2.1 * expF (-(x - p.2.2.1) ^ 2 / (2 * p.2.2.2 ^ 2))

/-- `fit_gaussian_centroid` (source lines 78-83): delegate to the solver
with the Gaussian model and return the fitted parameters. -/
def fit_gaussian_centroid (cf : CurveFit) (expF : ℚ → ℚ) (x y : List ℚ)
    (p0 : ℚ × ℚ × ℚ × ℚ) : ℚ × ℚ × ℚ × ℚ :=
  cf (fun t p => gauss expF t p) x y p0

/-- `centroid_peak` (source lines 85-92): slice
`x[centre-width:centre+width]` and likewise for `y`, fit the Gaussian with
initial guess `[0, y_zoom[width], x_zoom[width], 1]`, and return the
fitted centre (third parameter). `none` models the `IndexError` Python
raises when the windows are too short for the `[width]` indexing. -/
def centroid_peak (cf : CurveFit) (expF : ℚ → ℚ) (width : Nat)
    (x y : List ℚ) (centre : Int) : Option ℚ :=
  let x_zoom := pySlice x (centre - width) (centre + width)
  let y_zoom := pySlice y (centre - width) (centre + width)
  match y_zoom.get? width, x_zoom.get? width with
  | some a, some c0 =>
    some ((fit_gaussian_centroid cf expF x_zoom y_zoom (0, a, c0, 1)).2.2.1)
  | _, _ => none

/-- The loop of `get_centroid_locations` (source lines 105-106): refine the
positions in order, propagating a failure of any single refinement, as the
Python loop propagates an exception. -/
def gclLoop (cf : CurveFit) (expF : ℚ → ℚ) (xaxis spectrum : List ℚ) :
    List ℚ → Option (List ℚ)
  | [] => some []
  | p :: ps =>
    match centroid_peak cf expF 5 xaxis spectrum (pyInt p) with
    | none => none
    | some v =>
      match gclLoop cf expF xaxis spectrum ps with
      | none => none
      | some vs => some (v :: vs)

/-- `get_centroid_locations` (source lines 94-107): refine every position
of `pix` with window half-width 5 over the axis `np.arange(len(spectrum))`,
truncating each position with `int(p)`. -/
def get_centroid_locations (cf : CurveFit) (expF : ℚ → ℚ)
    (pix spectrum : List ℚ) : Option (List ℚ) :=
  gclLoop cf expF (pyArangeN spectrum.length) spectrum pix

/-! ## Wavelength calibration (`calibration`, quasar module lines 109-138) -/

/-- `calibration` (source lines 109-138), data output only: fit a degree-3
polynomial `pix_refined → wav` and evaluate it over `pix_axis` to produce
the calibrated wavelength axis (the function's return value). -/
def calibration (pf : PolyFit) (pix_refined wav pix_axis : List ℚ) : List ℚ :=
  let fit := pf pix_refined wav 3
  pix_axis.map (fun p => polyEval fit p)

/-- The residuals `wav2 - wav` of `calibration` (source lines 125-126):
back-predicted wavelengths at the fitted positions minus the input
wavelengths. -/
def calibrationResiduals (pf : PolyFit) (pix_refined wav : List ℚ) : List ℚ :=
  (pix_refined.zip wav).map
    (fun pw => polyEval (pf pix_refined wav 3) pw.1 - pw.2)

/-- The square of the RMS printed by `calibration` (source line 126):
`sum((wav2-wav)**2)/len(pix_refined)`. The code prints its square root;
comparisons against the RMS are phrased through squares, which is
equivalent since the square root is monotone on nonnegatives. -/
def calibrationRMSsq (pf : PolyFit) (pix_refined wav : List ℚ) : ℚ :=
  (((calibrationResiduals pf pix_refined wav).map (fun r => r ^ 2)).sum) /
    (pix_refined.length : ℚ)

/-! ## The interactive grid viewer (`polyxenaPlotCentres` /
`polyxenaDisplayGrid`, astrometry exercise lines 147-212) -/

/-- Values bound in the module-global namespace by `polyxenaDisplayGrid`:
the image cutouts (`polyxena_cut%i`) and the opaque plotting objects
(`plot_cut%i` figures, `r_%i` image renderers, `c_%i` cross marks). -/
inductive GVal : Type
  | cut (img : List (List ℚ))
  | figure
  | renderer
  | cross
  deriving DecidableEq

/-- A Python namespace (`globals()`), modelled as an association list where
the most recent binding of a key shadows older ones. -/
def Globals : Type := List (String × GVal)

/-- `globals()['k'] = v`. -/
def setG (g : Globals) (k : String) (v : GVal) : Globals := (k, v) :: g

/-- Namespace lookup. -/
def lookupG (g : Globals) (k : String) : Option GVal :=
  (g.find? (fun kv => kv.1 = k)).map (fun kv => kv.2)

/-- The 2-D cutout `polyxena[int(y-30):int(y+30), int(x-30):int(x+30)]`
(source line 172). -/
def cut2d (polyxena : List (List ℚ)) (y x : ℚ) : List (List ℚ) :=
  (pySlice polyxena (pyInt (y - 30)) (pyInt (y + 30))).map
    (fun row => pySlice row (pyInt (x - 30)) (pyInt (x + 30)))

/-- The four global names written at loop index `i` (source lines 172-183);
`i` is 0-based, the names use `i+1`. -/
def gridNames (i : Nat) : List String :=
  ["polyxena_cut" ++ toString (i + 1), "plot_cut" ++ toString (i + 1),
   "r_" ++ toString (i + 1), "c_" ++ toString (i + 1)]

/-- The loop of `polyxenaDisplayGrid` (source lines 171-183):
`for (i, x), y in zip(enumerate(xcoors), ycoors)`, each iteration binding
`polyxena_cut%i`, `plot_cut%i`, `r_%i` and `c_%i` in the module-global
namespace via `globals()[...] = ...`. -/
def gridLoop (polyxena : List (List ℚ)) : Nat → List (ℚ × ℚ) → Globals → Globals
  | _, [], g => g
  | i, (x, y) :: rest, g =>
    let g1 := setG g ("polyxena_cut" ++ toString (i + 1)) (.cut (cut2d polyxena y x))
    let g2 := setG g1 ("plot_cut" ++ toString (i + 1)) .figure
    let g3 := setG g2 ("r_" ++ toString (i + 1)) .renderer
    let g4 := setG g3 ("c_" ++ toString (i + 1)) .cross
    gridLoop polyxena (i + 1) rest g4

/-- The effect of `polyxenaDisplayGrid` (source lines 159-209) on the
module-global namespace: the zipped coordinate pairs drive the loop that
writes the dynamically named bindings. The rendering side (figures,
colorbar widgets, layout) is delegated to the plotting library and carries
no further namespace effect. -/
def polyxenaDisplayGrid (polyxena : List (List ℚ)) (xcoors ycoors : List ℚ)
    (g : Globals) : Globals :=
  gridLoop polyxena 0 (xcoors.zip ycoors) g

/-- All global names written by a run over `m` coordinate pairs. -/
def gridKeys (m : Nat) : List String := (List.range m).flatMap gridNames

/-! ## Basic lemmas about the Python-semantics helpers -/

theorem pyIdx_natCast (n a : Nat) : pyIdx n (a : Int) = min a n := by
  unfold pyIdx
  rw [if_neg (by omega)]
  omega

theorem pySlice_nat {α : Type} (xs : List α) (a b : Nat) (hb : b ≤ xs.length) :
    pySlice xs (a : Int) (b : Int) = (xs.drop (min a xs.length)).take (b - min a xs.length) := by
  unfold pySlice
  rw [pyIdx_natCast, pyIdx_natCast]
  congr 1
  omega

theorem pySlice_nat_le {α : Type} (xs : List α) (a b : Nat) (ha : a ≤ xs.length)
    (hb : b ≤ xs.length) :
    pySlice xs (a : Int) (b : Int) = (xs.drop a).take (b - a) := by
  rw [pySlice_nat xs a b hb, Nat.min_eq_left ha]

theorem length_pySlice_nat {α : Type} (xs : List α) (a b : Nat) (hab : a ≤ b)
    (hb : b ≤ xs.length) : (pySlice xs (a : Int) (b : Int)).length = b - a := by
  rw [pySlice_nat_le xs a b (le_trans hab hb) hb]
  simp [List.length_take, List.length_drop]
  omega

theorem length_getColumn (image : List (List ℚ)) (col : Nat) :
    (getColumn image col).length = image.length := by
  simp [getColumn]

theorem length_pyArange (a b : Int) : (pyArange a b).length = (b - a).toNat := by
  unfold pyArange
  rw [List.length_map, List.length_range]

theorem length_pyArangeN (N : Nat) : (pyArangeN N).length = N := by
  unfold pyArangeN
  rw [List.length_map, List.length_range]

/-- Concrete fitter (degree 2) used to instantiate claims at concrete
inputs; the theorems quantify over the fitter, so any instance serves. -/
def zeroPF3 : PolyFit := fun _ _ _ => [0, 0, 0]

/-- Concrete fitter (degree 3) used to instantiate claims at concrete
inputs. -/
def zeroPF4 : PolyFit := fun _ _ _ => [0, 0, 0, 0]

/-- Concrete solver used to instantiate claims at concrete inputs: returns
the initial guess unchanged. -/
def constCF : CurveFit := fun _ _ _ p0 => p0

/-- Concrete exponential stand-in used to instantiate claims at concrete
inputs; the theorems quantify over it. -/
def idExp : ℚ → ℚ := fun q => q

/-! ## Claim C4: invalid boundary ordering fails fast -/

/-- C4: for every image and every boundary quadruple that is not strictly
increasing, `background` raises the documented descriptive input error
before any fitting: the result is exactly the validation error and no
output array is produced. -/
theorem claim_C4 (pf : PolyFit) (image : List (List ℚ)) (y1 y2 y3 y4 : Int)
    (h : ¬ (y1 < y2 ∧ y2 < y3 ∧ y3 < y4)) :
    background pf image y1 y2 y3 y4 = .error bgErrMsg := by
  unfold background
  rw [if_pos]
  intro hv
  exact h hv.1

theorem claim_C4_witness :
    (¬ ((10 : Int) < 5 ∧ (5 : Int) < 73 ∧ (73 : Int) < 74)) ∧
      background zeroPF3 [[1]] 10 5 73 74 = .error bgErrMsg :=
  ⟨by decide, claim_C4 zeroPF3 [[1]] 10 5 73 74 (by decide)⟩

/-- Two lists of equal length that agree on the index range `[a, b)` have
equal Python slices `[a:b]`. -/
theorem pySlice_congr_of_agree (y1 y2 : List ℚ) (a b : Nat)
    (hlen : y1.length = y2.length) (hab : a ≤ b) (hb : b ≤ y1.length)
    (hagree : ∀ i, a ≤ i → i < b → y1.getD i 0 = y2.getD i 0) :
    pySlice y1 (a : Int) (b : Int) = pySlice y2 (a : Int) (b : Int) := by
  rw [pySlice_nat_le y1 a b (le_trans hab hb) hb,
      pySlice_nat_le y2 a b (by omega) (by omega)]
  apply List.ext_getElem
  · simp only [List.length_take, List.length_drop, hlen]
  · intro n h1 h2
    simp only [List.length_take, List.length_drop] at h1
    simp only [List.getElem_take, List.getElem_drop]
    have hn : a + n < b := by omega
    rw [← List.getD_eq_getElem y1 0 (by omega), ← List.getD_eq_getElem y2 0 (by omega)]
    exact hagree (a + n) (by omega) hn

/-! ## Claim C10: the refined centroid depends only on the window -/

/-- C10: the refined centroid returned by `centroid_peak` depends only on
the samples inside its extraction window: two spectra of equal length that
agree on the window indices around the given centre (the indices the slice
`[centre-5:centre+5]` reads), with the centre at least the half-width from
both ends, give the same result, for every solver. -/
theorem claim_C10 (cf : CurveFit) (expF : ℚ → ℚ) (y1 y2 : List ℚ) (c : Nat)
    (hlen : y1.length = y2.length) (hc5 : 5 ≤ c) (hce : c + 5 ≤ y1.length)
    (hagree : ∀ i, c - 5 ≤ i → i < c + 5 → y1.getD i 0 = y2.getD i 0) :
    centroid_peak cf expF 5 (pyArangeN y1.length) y1 (c : Int) =
      centroid_peak cf expF 5 (pyArangeN y2.length) y2 (c : Int) := by
  have ex : pyArangeN y2.length = pyArangeN y1.length := by rw [hlen]
  have e5 : ((c : Int) - ((5 : Nat) : Int)) = (((c - 5 : Nat) : Nat) : Int) := by omega
  have e5' : ((c : Int) + ((5 : Nat) : Int)) = (((c + 5 : Nat) : Nat) : Int) := by omega
  have hs : pySlice y1 ((c : Int) - ((5 : Nat) : Int)) ((c : Int) + ((5 : Nat) : Int)) =
      pySlice y2 ((c : Int) - ((5 : Nat) : Int)) ((c : Int) + ((5 : Nat) : Int)) := by
    rw [e5, e5']
    exact pySlice_congr_of_agree y1 y2 (c - 5) (c + 5) hlen (by omega) hce hagree
  unfold centroid_peak
  rw [ex, hs]

theorem claim_C10_witness :
    ((pyArangeN 20).length = (pyArangeN 20).length ∧ 5 ≤ 10 ∧
        10 + 5 ≤ (pyArangeN 20).length) ∧
      centroid_peak constCF idExp 5 (pyArangeN (pyArangeN 20).length)
          (pyArangeN 20) ((10 : Nat) : Int) =
        centroid_peak constCF idExp 5 (pyArangeN (pyArangeN 20).length)
          (pyArangeN 20) ((10 : Nat) : Int) :=
  ⟨⟨rfl, by omega, by rw [length_pyArangeN]; omega⟩,
    claim_C10 constCF idExp (pyArangeN 20) (pyArangeN 20) 10 rfl (by omega)
      (by rw [length_pyArangeN]; omega) (fun _ _ _ => rfl)⟩

/-! ## Claim C9: truncation toward zero and one output entry per input -/

/-- A successful run of the refinement loop yields exactly one entry per
input position, in input order, each obtained from the truncated
position. -/
theorem gclLoop_spec (cf : CurveFit) (expF : ℚ → ℚ) (xaxis spectrum : List ℚ) :
    ∀ (l : List ℚ) (res : List ℚ), gclLoop cf expF xaxis spectrum l = some res →
      res.length = l.length ∧
        ∀ j, j < l.length →
          res.get? j = centroid_peak cf expF 5 xaxis spectrum (pyInt (l.getD j 0))
  | [], res, h => by
    simp only [gclLoop, Option.some.injEq] at h
    subst h
    exact ⟨rfl, fun j hj => absurd hj (by simp)⟩
  | p :: ps, res, h => by
    simp only [gclLoop] at h
    cases hc : centroid_peak cf expF 5 xaxis spectrum (pyInt p) with
    | none => rw [hc] at h; exact absurd h (by simp)
    | some v =>
      rw [hc] at h
      cases hr : gclLoop cf expF xaxis spectrum ps with
      | none => rw [hr] at h; exact absurd h (by simp)
      | some vs =>
        rw [hr] at h
        simp only [Option.some.injEq] at h
        subst h
        obtain ⟨ih1, ih2⟩ := gclLoop_spec cf expF xaxis spectrum ps vs hr
        refine ⟨by simp [ih1], ?_⟩
        intro j hj
        cases j with
        | zero => simpa using hc.symm
        | succ j' =>
          simp only [List.get?, List.getD_cons_succ]
          exact ih2 j' (by simpa using hj)

/-- C9: `get_centroid_locations` truncates each approximate position
toward zero (`int(p)`, modelled by `pyInt`) before windowing, so two
positions with the same truncation give identical refined centroids; and
a successful output has exactly one entry per input position, in input
order, the `j`-th entry refining the `j`-th input. -/
theorem claim_C9 (cf : CurveFit) (expF : ℚ → ℚ) (pix spectrum : List ℚ)
    (p q : ℚ) (h : pyInt p = pyInt q) :
    (centroid_peak cf expF 5 (pyArangeN spectrum.length) spectrum (pyInt p) =
        centroid_peak cf expF 5 (pyArangeN spectrum.length) spectrum (pyInt q)) ∧
      ∀ res, get_centroid_locations cf expF pix spectrum = some res →
        res.length = pix.length ∧
          ∀ j, j < pix.length →
            res.get? j = centroid_peak cf expF 5 (pyArangeN spectrum.length)
              spectrum (pyInt (pix.getD j 0)) := by
  constructor
  · rw [h]
  · intro res hres
    exact gclLoop_spec cf expF (pyArangeN spectrum.length) spectrum pix res hres

theorem claim_C9_witness :
    pyInt (7 : ℚ) = pyInt (mkRat 79 10) ∧
      (centroid_peak constCF idExp 5 (pyArangeN (pyArangeN 20).length)
          (pyArangeN 20) (pyInt (7 : ℚ)) =
        centroid_peak constCF idExp 5 (pyArangeN (pyArangeN 20).length)
          (pyArangeN 20) (pyInt (mkRat 79 10))) ∧
      ∀ res, get_centroid_locations constCF idExp [7, mkRat 79 10] (pyArangeN 20) =
          some res →
        res.length = ([7, mkRat 79 10] : List ℚ).length ∧
          ∀ j, j < ([7, mkRat 79 10] : List ℚ).length →
            res.get? j = centroid_peak constCF idExp 5 (pyArangeN (pyArangeN 20).length)
              (pyArangeN 20) (pyInt (([7, mkRat 79 10] : List ℚ).getD j 0)) :=
  ⟨by decide,
    (claim_C9 constCF idExp [7, mkRat 79 10] (pyArangeN 20) 7 (mkRat 79 10) (by decide)).1,
    (claim_C9 constCF idExp [7, mkRat 79 10] (pyArangeN 20) 7 (mkRat 79 10) (by decide)).2⟩

/-! ## Claim C6: the extraction window of `centroid_peak` -/

/-- Slicing `np.arange(N)[a:b]` yields the consecutive integers
`a, ..., b-1`. -/
theorem pySlice_pyArangeN (N a b : Nat) (hab : a ≤ b) (hb : b ≤ N) :
    pySlice (pyArangeN N) (a : Int) (b : Int) =
      (List.range' a (b - a)).map (fun i : Nat => (i : ℚ)) := by
  have hlen : (pyArangeN N).length = N := length_pyArangeN N
  rw [pySlice_nat_le (pyArangeN N) a b (by omega) (by omega)]
  apply List.ext_getElem
  · simp only [List.length_take, List.length_drop, List.length_map,
      List.length_range', hlen]
    omega
  · intro n h1 h2
    simp only [List.length_take, List.length_drop, hlen] at h1
    simp only [List.getElem_take, List.getElem_drop, List.getElem_map,
      List.getElem_range']
    unfold pyArangeN
    simp only [List.getElem_map, List.getElem_range]
    norm_num

/-- The solver that reports the number of x samples it was handed, used to
exhibit the actual window size. -/
def lenCF : CurveFit := fun _ xs _ _ => (0, 0, (xs.length : ℚ), 0)

/-- C6 counterexample: the claim asserts the window is the 11 samples from
`position-5` to `position+5`.  On the code, a solver that reports the
number of samples it receives returns 10 at position 10 of a length-20
spectrum (the slice `x[5:15]` holds the 10 samples `5..14`), whereas under
the claimed 11-sample window it would return 11. -/
theorem claim_C6_counterexample :
    centroid_peak lenCF idExp 5 (pyArangeN 20) (pyArangeN 20) 10 = some 10 ∧
      (fit_gaussian_centroid lenCF idExp
          ((List.range' 5 11).map (fun i : Nat => (i : ℚ)))
          ((List.range' 5 11).map (fun i : Nat => (i : ℚ)))
          (0, 10, 10, 1)).2.2.1 = 11 ∧
      (10 : ℚ) ≠ 11 := by
  refine ⟨by decide, by decide, by decide⟩

/-- C6 amended: for every solver and every 1-D spectrum with the integer
position at least 5 from both ends, `centroid_peak` extracts the half-open
window of the 10 samples from `position-5` to `position+4` (the Python
slice `[position-5 : position+5]`), fits the 4-parameter Gaussian via the
solver with initial guesses baseline `0`, amplitude the sample at the
position, centre the position itself, width `1`, and returns the third
fitted parameter as the refined position. -/
theorem claim_C6_amended (cf : CurveFit) (expF : ℚ → ℚ) (y : List ℚ) (c : Nat)
    (hc5 : 5 ≤ c) (hce : c + 5 ≤ y.length) :
    centroid_peak cf expF 5 (pyArangeN y.length) y (c : Int) =
      some ((fit_gaussian_centroid cf expF
        ((List.range' (c - 5) 10).map (fun i : Nat => (i : ℚ)))
        ((y.drop (c - 5)).take 10)
        (0, y.getD c 0, (c : ℚ), 1)).2.2.1) := by
  have e5 : ((c : Int) - ((5 : Nat) : Int)) = (((c - 5 : Nat) : Nat) : Int) := by omega
  have e5' : ((c : Int) + ((5 : Nat) : Int)) = (((c + 5 : Nat) : Nat) : Int) := by omega
  have h10 : (c + 5) - (c - 5) = 10 := by omega
  have hx : pySlice (pyArangeN y.length) ((c : Int) - ((5 : Nat) : Int))
      ((c : Int) + ((5 : Nat) : Int)) =
      (List.range' (c - 5) 10).map (fun i : Nat => (i : ℚ)) := by
    rw [e5, e5', pySlice_pyArangeN y.length (c - 5) (c + 5) (by omega) hce, h10]
  have hy : pySlice y ((c : Int) - ((5 : Nat) : Int)) ((c : Int) + ((5 : Nat) : Int)) =
      (y.drop (c - 5)).take 10 := by
    rw [e5, e5', pySlice_nat_le y (c - 5) (c + 5) (by omega) hce, h10]
  have hgx : ((List.range' (c - 5) 10).map (fun i : Nat => (i : ℚ))).get? 5 =
      some ((c : ℚ)) := by
    have hl : 5 < ((List.range' (c - 5) 10).map (fun i : Nat => (i : ℚ))).length := by
      simp [List.length_map, List.length_range']
    rw [List.get?_eq_getElem?, List.getElem?_eq_getElem hl]
    simp only [List.getElem_map, List.getElem_range']
    have hidx : c - 5 + 1 * 5 = c := by omega
    rw [hidx]
  have hgy : ((y.drop (c - 5)).take 10).get? 5 = some (y.getD c 0) := by
    have hl : 5 < ((y.drop (c - 5)).take 10).length := by
      simp only [List.length_take, List.length_drop]
      omega
    rw [List.get?_eq_getElem?, List.getElem?_eq_getElem hl]
    simp only [List.getElem_take, List.getElem_drop]
    have hidx : c - 5 + 5 = c := by omega
    simp only [hidx]
    rw [← List.getD_eq_getElem y 0 (by omega)]
  simp only [centroid_peak]
  rw [hx, hy, hgx, hgy]

theorem claim_C6_amended_witness :
    (5 ≤ 10 ∧ 10 + 5 ≤ (pyArangeN 20).length) ∧
      centroid_peak constCF idExp 5 (pyArangeN (pyArangeN 20).length)
          (pyArangeN 20) ((10 : Nat) : Int) =
        some ((fit_gaussian_centroid constCF idExp
          ((List.range' (10 - 5) 10).map (fun i : Nat => (i : ℚ)))
          (((pyArangeN 20).drop (10 - 5)).take 10)
          (0, (pyArangeN 20).getD 10 0, ((10 : Nat) : ℚ), 1)).2.2.1) :=
  ⟨⟨by omega, by rw [length_pyArangeN]; omega⟩,
    claim_C6_amended constCF idExp (pyArangeN 20) 10 (by omega)
      (by rw [length_pyArangeN]; omega)⟩

/-! ## Claim C1: the calibrated wavelength axis -/

/-- A coefficient vector of the right length with zero residual sum is a
least-squares fit (the objective is a sum of squares, hence nonnegative). -/
theorem isLSPolyFit_of_zero (deg : Nat) (xs ys coeffs : List ℚ)
    (hlen : coeffs.length = deg + 1) (h0 : sumSqErr xs ys coeffs = 0) :
    IsLSPolyFit deg xs ys coeffs :=
  ⟨hlen, fun other _ => by rw [h0]; exact sumSqErr_nonneg xs ys other⟩

/-- C1: for parallel position/wavelength sequences with at least 4
distinct positions, the wavelength axis returned by `calibration` has one
entry per entry of the supplied pixel axis, and its `i`-th entry is the
fitted degree-3 least-squares polynomial (the fitter's output, constrained
by `IsLSPolyFit`) evaluated at the `i`-th entry of the pixel axis. -/
theorem claim_C1 (pf : PolyFit) (pix wav axis : List ℚ)
    (hlen : pix.length = wav.length) (hd : 4 ≤ pix.dedup.length)
    (hLS : IsLSPolyFit 3 pix wav (pf pix wav 3)) :
    (calibration pf pix wav axis).length = axis.length ∧
      ∀ i, i < axis.length →
        (calibration pf pix wav axis).getD i 0 =
          polyEval (pf pix wav 3) (axis.getD i 0) := by
  constructor
  · simp [calibration]
  · intro i hi
    simp only [calibration]
    rw [List.getD_eq_getElem _ _ (by simpa using hi), List.getElem_map,
      ← List.getD_eq_getElem axis 0 hi]

theorem zeroPF4_isLS :
    IsLSPolyFit 3 [0, 1, 2, 3] ([0, 0, 0, 0] : List ℚ)
      (zeroPF4 [0, 1, 2, 3] [0, 0, 0, 0] 3) :=
  isLSPolyFit_of_zero 3 _ _ _ rfl (by norm_num [zeroPF4, sumSqErr, polyEval])

theorem claim_C1_witness :
    (([0, 1, 2, 3] : List ℚ).length = ([0, 0, 0, 0] : List ℚ).length ∧
        4 ≤ ([0, 1, 2, 3] : List ℚ).dedup.length ∧
        IsLSPolyFit 3 [0, 1, 2, 3] [0, 0, 0, 0]
          (zeroPF4 [0, 1, 2, 3] [0, 0, 0, 0] 3)) ∧
      (calibration zeroPF4 [0, 1, 2, 3] [0, 0, 0, 0] [7, 11]).length =
          ([7, 11] : List ℚ).length ∧
        ∀ i, i < ([7, 11] : List ℚ).length →
          (calibration zeroPF4 [0, 1, 2, 3] [0, 0, 0, 0] [7, 11]).getD i 0 =
            polyEval (zeroPF4 [0, 1, 2, 3] [0, 0, 0, 0] 3)
              (([7, 11] : List ℚ).getD i 0) :=
  ⟨⟨rfl, by decide, zeroPF4_isLS⟩,
    claim_C1 zeroPF4 [0, 1, 2, 3] [0, 0, 0, 0] [7, 11] rfl (by decide) zeroPF4_isLS⟩

/-! ## Claim C7: residuals versus the reported RMS -/

/-- Pixel positions of the C7 calibration input. -/
def cexPix : List ℚ := [0, 1, 2, 3, 4]

/-- Wavelengths of the C7 calibration input: the fourth finite difference
pattern, orthogonal to every cubic over `0..4`. -/
def cexWav : List ℚ := [1, -4, 6, -4, 1]

/-- Over the nodes `0..4` with data `(1,-4,6,-4,1)`, the zero polynomial is
the degree-3 least-squares fit: the data is orthogonal to all cubics, so
every competing cubic only adds its own squared values on top. -/
theorem cexWav_isLS : IsLSPolyFit 3 cexPix cexWav (zeroPF4 cexPix cexWav 3) := by
  refine ⟨rfl, ?_⟩
  intro other hlen
  rcases other with _ | ⟨a, _ | ⟨b, _ | ⟨c, _ | ⟨d, rest⟩⟩⟩⟩ <;>
    simp only [List.length_cons, List.length_nil] at hlen
  · omega
  · omega
  · omega
  · omega
  · have hrest : rest = [] := List.eq_nil_of_length_eq_zero (by omega)
    subst hrest
    simp only [zeroPF4, sumSqErr, cexPix, cexWav, polyEval, List.zip_cons_cons,
      List.zip_nil_right, List.map_cons, List.map_nil, List.sum_cons,
      List.sum_nil, List.foldl_cons, List.foldl_nil]
    ring_nf
    nlinarith [sq_nonneg d, sq_nonneg (a + b + c + d),
      sq_nonneg (8 * a + 4 * b + 2 * c + d), sq_nonneg (27 * a + 9 * b + 3 * c + d),
      sq_nonneg (64 * a + 16 * b + 4 * c + d)]

/-- C7 counterexample: a calibration input on which the cited claim fails.
The positions `0..4` are 5 distinct values, the wavelengths are the
alternating fourth-difference pattern, the zero cubic is the genuine
least-squares fit (`cexWav_isLS`), yet the residual at index 2 is `-6`,
whose square 36 exceeds the mean squared residual `70/5 = 14`: the
back-predicted wavelength misses the input by more than the reported RMS
(`6 > sqrt 14`). -/
theorem claim_C7_counterexample :
    cexPix.length = cexWav.length ∧ 4 ≤ cexPix.dedup.length ∧
      IsLSPolyFit 3 cexPix cexWav (zeroPF4 cexPix cexWav 3) ∧
      2 < cexPix.length ∧
      ¬ (((calibrationResiduals zeroPF4 cexPix cexWav).getD 2 0) ^ 2 ≤
          calibrationRMSsq zeroPF4 cexPix cexWav) := by
  refine ⟨rfl, by decide, cexWav_isLS, by decide, ?_⟩
  norm_num [calibrationResiduals, calibrationRMSsq, zeroPF4, polyEval,
    cexPix, cexWav]

/-- C7 amended: evaluating the fitted mapping at each refined pixel
position used for the fit reproduces the corresponding input wavelength to
within `sqrt n` times the reported RMS (`n` the number of positions), the
reported RMS being the root of the mean squared residual; phrased through
squares, each squared residual is at most `n` times the squared RMS.
Individual residuals can exceed the RMS itself, as the counterexample
shows. -/
theorem claim_C7_amended (pf : PolyFit) (pix wav : List ℚ)
    (hlen : pix.length = wav.length) (hpos : 0 < pix.length) :
    ∀ i, i < pix.length →
      ((calibrationResiduals pf pix wav).getD i 0) ^ 2 ≤
        (pix.length : ℚ) * calibrationRMSsq pf pix wav := by
  intro i hi
  have hrlen : (calibrationResiduals pf pix wav).length = pix.length := by
    simp [calibrationResiduals, List.length_zip, hlen]
  have hne : ((pix.length : ℚ)) ≠ 0 := by
    have : (0 : ℚ) < (pix.length : ℚ) := by exact_mod_cast hpos
    exact ne_of_gt this
  have hsum : (pix.length : ℚ) * calibrationRMSsq pf pix wav =
      ((calibrationResiduals pf pix wav).map (fun r => r ^ 2)).sum := by
    unfold calibrationRMSsq
    rw [mul_comm, div_mul_cancel₀ _ hne]
  rw [hsum]
  have hmem : ((calibrationResiduals pf pix wav).getD i 0) ^ 2 ∈
      (calibrationResiduals pf pix wav).map (fun r => r ^ 2) := by
    rw [List.getD_eq_getElem _ _ (by omega)]
    exact List.mem_map_of_mem _ (List.getElem_mem (by omega))
  refine List.single_le_sum ?_ _ hmem
  intro x hx
  simp only [List.mem_map] at hx
  obtain ⟨r, _, rfl⟩ := hx
  positivity

theorem claim_C7_amended_witness :
    (cexPix.length = cexWav.length ∧ 0 < cexPix.length) ∧
      ∀ i, i < cexPix.length →
        ((calibrationResiduals zeroPF4 cexPix cexWav).getD i 0) ^ 2 ≤
          (cexPix.length : ℚ) * calibrationRMSsq zeroPF4 cexPix cexWav :=
  ⟨⟨rfl, by decide⟩, claim_C7_amended zeroPF4 cexPix cexWav rfl (by decide)⟩

/-! ## Success characterisation of the background estimator -/

theorem length_pySlice_int {α : Type} (xs : List α) (a b : Int) (ha : 0 ≤ a)
    (hab : a ≤ b) (hb : b ≤ (xs.length : Int)) :
    (pySlice xs a b).length = (b - a).toNat := by
  unfold pySlice pyIdx
  rw [if_neg (by omega), if_neg (by omega)]
  simp only [List.length_take, List.length_drop]
  omega

theorem length_medCols (a b c : List ℚ) :
    (medCols a b c).length = min a.length (min b.length c.length) := by
  simp [medCols, List.length_zipWith, List.length_zip]

theorem length_bgXs (y1 y2 y3 y4 : Int) :
    (bgXs y1 y2 y3 y4).length = (y2 - y1).toNat + (y4 - y3).toNat := by
  simp [bgXs, List.length_append, length_pyArange]

theorem length_backgroundColData (image : List (List ℚ)) (N : Nat)
    (y1 y2 y3 y4 : Int) (col : Nat) (h1 : 0 ≤ y1) (h12 : y1 ≤ y2) (h3 : 0 ≤ y3)
    (h34 : y3 ≤ y4) (h2r : y2 ≤ (image.length : Int))
    (h4r : y4 ≤ (image.length : Int)) :
    (backgroundColData image N y1 y2 y3 y4 col).length =
      (y2 - y1).toNat + (y4 - y3).toNat := by
  have hcol : ∀ column : List ℚ, column.length = image.length →
      (pySlice column y1 y2 ++ pySlice column y3 y4).length =
        (y2 - y1).toNat + (y4 - y3).toNat := by
    intro column hc
    rw [List.length_append, length_pySlice_int column y1 y2 h1 h12 (by omega),
      length_pySlice_int column y3 y4 h3 h34 (by omega)]
  by_cases hbr : col ≤ 1 ∨ N - 2 ≤ col
  · simp only [backgroundColData, if_pos hbr]
    exact hcol _ (length_getColumn image col)
  · simp only [backgroundColData, if_neg hbr]
    refine hcol _ ?_
    rw [length_medCols, length_getColumn, length_getColumn, length_getColumn]
    omega

/-- A column of the loop succeeds whenever the boundaries validate, the
image has at least `y4` rows, and the column index is inside the image. -/
theorem backgroundColumn_ok (pf : PolyFit) (image : List (List ℚ))
    (y1 y2 y3 y4 : Int) (c : Nat) (hv : bgValid y1 y2 y3 y4)
    (hy4 : y4 ≤ (image.length : Int)) (hc : c < (image.headD []).length) :
    backgroundColumn pf image y1 y2 y3 y4 c =
      .ok ((List.range (min image.length (image.headD []).length)).map
        (fun i : Nat => polyEval (pf (bgXs y1 y2 y3 y4)
          (backgroundColData image (max image.length (image.headD []).length)
            y1 y2 y3 y4 c) 2) (i : ℚ))) := by
  obtain ⟨⟨h12, h23, h34⟩, ⟨h01, _⟩, _, ⟨h73, _⟩, _⟩ := hv
  have heq : (bgXs y1 y2 y3 y4).length =
      (backgroundColData image (max image.length (image.headD []).length)
        y1 y2 y3 y4 c).length := by
    rw [length_bgXs, length_backgroundColData image _ y1 y2 y3 y4 c h01
      (le_of_lt h12) (by omega) (le_of_lt h34) (by omega) hy4]
  simp only [backgroundColumn]
  rw [if_neg (by omega), if_neg (not_not_intro heq)]

theorem collectCols_ok (f : Nat → Except String (List ℚ)) (g : Nat → List ℚ) :
    ∀ l : List Nat, (∀ c ∈ l, f c = .ok (g c)) →
      collectCols f l = .ok (l.map g)
  | [], _ => rfl
  | c :: cs, h => by
    simp only [collectCols, h c (List.mem_cons_self c cs),
      collectCols_ok f g cs (fun c' hc' => h c' (List.mem_cons_of_mem c hc')),
      List.map_cons]

theorem getD_map_range {β : Type} (m c : Nat) (f : Nat → β) (d : β)
    (hc : c < m) : ((List.range m).map f).getD c d = f c := by
  rw [List.getD_eq_getElem _ _ (by simpa using hc), List.getElem_map,
    List.getElem_range]

/-- The closed form of a successful `background` run: one fitted value per
pixel, the degree-2 fit of column `c`'s band data evaluated at row `i`. -/
def bgResult (pf : PolyFit) (image : List (List ℚ)) (y1 y2 y3 y4 : Int) :
    List (List ℚ) :=
  (List.range image.length).map (fun i : Nat =>
    (List.range (image.headD []).length).map (fun c : Nat =>
      polyEval (pf (bgXs y1 y2 y3 y4)
        (backgroundColData image (image.headD []).length y1 y2 y3 y4 c) 2)
        (i : ℚ)))

/-- With valid boundaries, at least as many columns as rows, and at least
`y4` rows, `background` succeeds and returns exactly `bgResult`. -/
theorem background_ok (pf : PolyFit) (image : List (List ℚ)) (y1 y2 y3 y4 : Int)
    (hv : bgValid y1 y2 y3 y4)
    (hrc : image.length ≤ (image.headD []).length)
    (hy4 : y4 ≤ (image.length : Int)) :
    background pf image y1 y2 y3 y4 = .ok (bgResult pf image y1 y2 y3 y4) := by
  have hN : max image.length (image.headD []).length = (image.headD []).length :=
    Nat.max_eq_right hrc
  have hn : min image.length (image.headD []).length = image.length :=
    Nat.min_eq_left hrc
  have hcc : collectCols (backgroundColumn pf image y1 y2 y3 y4)
      (List.range (max image.length (image.headD []).length)) =
      .ok ((List.range (image.headD []).length).map (fun c : Nat =>
        (List.range image.length).map (fun i : Nat =>
          polyEval (pf (bgXs y1 y2 y3 y4)
            (backgroundColData image (image.headD []).length y1 y2 y3 y4 c) 2)
            (i : ℚ)))) := by
    rw [hN]
    apply collectCols_ok
    intro c hc
    rw [backgroundColumn_ok pf image y1 y2 y3 y4 c hv hy4 (List.mem_range.mp hc),
      hn, hN]
  simp only [background]
  rw [if_neg (not_not_intro hv), hcc]
  refine congrArg Except.ok ?_
  unfold bgResult
  apply List.map_congr_left
  intro i hi
  apply List.map_congr_left
  intro c hc
  rw [if_pos (by rw [hn]; exact List.mem_range.mp hi),
    getD_map_range _ c _ [] (List.mem_range.mp hc),
    getD_map_range _ i _ 0 (List.mem_range.mp hi)]

/-! ## Claim C2: shape of the background estimator's output -/

set_option maxRecDepth 4096 in
/-- C2 counterexample: the validation check does not look at the image, so
quadruples that pass it can still make the estimator raise.  On a 2x2
image, `(0,1,73,74)` passes validation but the band `73:74` slices to
nothing, `np.polyfit` receives mismatched data and raises; on a 136x2
image the loop over `max(image.shape) = 136` columns runs past the 2
existing columns and indexing raises.  In both cases no array is
returned. -/
theorem claim_C2_counterexample :
    bgValid 0 1 73 74 ∧
      background zeroPF3 [[1, 1], [1, 1]] 0 1 73 74 = .error bgTyMsg ∧
      background zeroPF3 (List.replicate 136 [1, 1]) 0 1 73 74 =
        .error bgIxMsg := by
  refine ⟨by decide, by rfl, by rfl⟩

/-- C2 amended: for every rectangular image with at least as many columns
as rows and at least `y4` rows, and every quadruple passing the validation
check, the estimator returns (without raising) an array of exactly the
same shape as the image.  The two extra image-shape conditions are forced
by the counterexample: validation alone does not prevent a raise. -/
theorem claim_C2_amended (pf : PolyFit) (image : List (List ℚ))
    (y1 y2 y3 y4 : Int) (hv : bgValid y1 y2 y3 y4)
    (hrect : ∀ r ∈ image, r.length = (image.headD []).length)
    (hrc : image.length ≤ (image.headD []).length)
    (hy4 : y4 ≤ (image.length : Int)) :
    ∃ out, background pf image y1 y2 y3 y4 = .ok out ∧
      out.length = image.length ∧
      ∀ j, j < image.length →
        (out.getD j []).length = (image.getD j []).length := by
  refine ⟨bgResult pf image y1 y2 y3 y4,
    background_ok pf image y1 y2 y3 y4 hv hrc hy4, by simp [bgResult], ?_⟩
  intro j hj
  unfold bgResult
  rw [getD_map_range _ j _ [] hj, List.length_map, List.length_range,
    hrect (image.getD j []) (by rw [List.getD_eq_getElem _ _ hj]; exact List.getElem_mem hj)]

/-- The 74x74 all-zero image used to instantiate the background claims. -/
def img74 : List (List ℚ) := List.replicate 74 (List.replicate 74 0)

theorem claim_C2_amended_witness :
    (bgValid 0 1 73 74 ∧
        (∀ r ∈ img74, r.length = (img74.headD []).length) ∧
        img74.length ≤ (img74.headD []).length ∧
        (74 : Int) ≤ (img74.length : Int)) ∧
      ∃ out, background zeroPF3 img74 0 1 73 74 = .ok out ∧
        out.length = img74.length ∧
        ∀ j, j < img74.length →
          (out.getD j []).length = (img74.getD j []).length :=
  ⟨⟨by decide, by decide, by decide, by decide⟩,
    claim_C2_amended zeroPF3 img74 0 1 73 74 (by decide) (by decide) (by decide)
      (by decide)⟩

/-! ## Claim C3: per-column content of the background estimator's output -/

/-- C3: whenever `background` produces an output (valid boundaries, at
least as many columns as rows, at least `y4` rows), entry `(i, c)` of the
output is the degree-2 polynomial fitted (least-squares, by the `IsLSPolyFit`
hypothesis on the fitter) to the concatenation of the two background-band
row ranges of column `c`'s data — the raw column for the two columns on
each end, the elementwise median of the column and its two neighbours
otherwise — evaluated at row index `i`. -/
theorem claim_C3 (pf : PolyFit) (image : List (List ℚ)) (y1 y2 y3 y4 : Int)
    (hv : bgValid y1 y2 y3 y4)
    (hrc : image.length ≤ (image.headD []).length)
    (hy4 : y4 ≤ (image.length : Int))
    (hLS : ∀ c, c < (image.headD []).length →
      IsLSPolyFit 2 (bgXs y1 y2 y3 y4)
        (backgroundColData image (image.headD []).length y1 y2 y3 y4 c)
        (pf (bgXs y1 y2 y3 y4)
          (backgroundColData image (image.headD []).length y1 y2 y3 y4 c) 2)) :
    ∀ out, background pf image y1 y2 y3 y4 = .ok out →
      ∀ i c, i < image.length → c < (image.headD []).length →
        (out.getD i []).getD c 0 =
          polyEval (pf (bgXs y1 y2 y3 y4)
            (backgroundColData image (image.headD []).length y1 y2 y3 y4 c) 2)
            (i : ℚ) := by
  intro out hok i c hi hc
  rw [background_ok pf image y1 y2 y3 y4 hv hrc hy4] at hok
  simp only [Except.ok.injEq] at hok
  subst hok
  unfold bgResult
  rw [getD_map_range _ i _ [] hi, getD_map_range _ c _ 0 hc]

theorem getColumn_img74 (col : Nat) :
    getColumn img74 col = List.replicate 74 (0 : ℚ) := by
  unfold getColumn img74
  rw [List.map_replicate]
  rcases lt_or_ge col 74 with h | h
  · rw [List.getD_eq_getElem _ _ (by simpa using h), List.getElem_replicate]
  · rw [List.getD_eq_default _ _ (by simpa using h)]

theorem colData_img74 (c : Nat) :
    backgroundColData img74 74 0 1 73 74 c = [0, 0] := by
  by_cases hbr : c ≤ 1 ∨ 74 - 2 ≤ c
  · simp only [backgroundColData, if_pos hbr, getColumn_img74]
    decide
  · simp only [backgroundColData, if_neg hbr, getColumn_img74]
    decide

theorem img74_isLS (c : Nat) (hc : c < (img74.headD []).length) :
    IsLSPolyFit 2 (bgXs 0 1 73 74)
      (backgroundColData img74 (img74.headD []).length 0 1 73 74 c)
      (zeroPF3 (bgXs 0 1 73 74)
        (backgroundColData img74 (img74.headD []).length 0 1 73 74 c) 2) := by
  have h74 : (img74.headD []).length = 74 := by decide
  rw [h74, colData_img74 c]
  refine isLSPolyFit_of_zero 2 _ _ _ rfl ?_
  norm_num [sumSqErr, bgXs, pyArange, polyEval, zeroPF3, List.range_succ]

theorem claim_C3_witness :
    (bgValid 0 1 73 74 ∧ img74.length ≤ (img74.headD []).length ∧
        (74 : Int) ≤ (img74.length : Int) ∧
        (∀ c, c < (img74.headD []).length →
          IsLSPolyFit 2 (bgXs 0 1 73 74)
            (backgroundColData img74 (img74.headD []).length 0 1 73 74 c)
            (zeroPF3 (bgXs 0 1 73 74)
              (backgroundColData img74 (img74.headD []).length 0 1 73 74 c) 2))) ∧
      ∀ out, background zeroPF3 img74 0 1 73 74 = .ok out →
        ∀ i c, i < img74.length → c < (img74.headD []).length →
          (out.getD i []).getD c 0 =
            polyEval (zeroPF3 (bgXs 0 1 73 74)
              (backgroundColData img74 (img74.headD []).length 0 1 73 74 c) 2)
              (i : ℚ) :=
  ⟨⟨by decide, by decide, by decide, fun c hc => img74_isLS c hc⟩,
    claim_C3 zeroPF3 img74 0 1 73 74 (by decide) (by decide) (by decide)
      (fun c hc => img74_isLS c hc)⟩

/-! ## Claim C5: which inputs the validation accepts -/

theorem backgroundColumn_error (pf : PolyFit) (image : List (List ℚ))
    (y1 y2 y3 y4 : Int) (col : Nat) (s : String)
    (h : backgroundColumn pf image y1 y2 y3 y4 col = .error s) :
    s = bgIxMsg ∨ s = bgTyMsg := by
  simp only [backgroundColumn] at h
  split at h
  · simp only [Except.error.injEq] at h
    exact Or.inl h.symm
  · split at h
    · simp only [Except.error.injEq] at h
      exact Or.inr h.symm
    · exact absurd h (by simp)

theorem collectCols_error (f : Nat → Except String (List ℚ)) :
    ∀ (l : List Nat) (s : String), collectCols f l = .error s →
      ∃ c ∈ l, f c = .error s
  | [], s, h => by simp [collectCols] at h
  | c :: cs, s, h => by
    simp only [collectCols] at h
    cases hf : f c with
    | error e =>
      rw [hf] at h
      simp only [Except.error.injEq] at h
      exact ⟨c, List.mem_cons_self c cs, by rw [hf, h]⟩
    | ok v =>
      rw [hf] at h
      cases hr : collectCols f cs with
      | error e =>
        rw [hr] at h
        simp only [Except.error.injEq] at h
        subst h
        obtain ⟨c', hc', hfc'⟩ := collectCols_error f cs e hr
        exact ⟨c', List.mem_cons_of_mem c hc', hfc'⟩
      | ok vs => rw [hr] at h; exact absurd h (by simp)

/-- The claim's image-relative reading of the validity condition, following
the spec's words: boundaries strictly increasing, band 1 within the first
half of the image's row extent, band 2 within the second half. -/
def specHalfExtentOK (rows : Nat) (y1 y2 y3 y4 : Int) : Prop :=
  0 ≤ y1 ∧ y1 < y2 ∧ y2 < y3 ∧ y3 < y4 ∧
    y2 < (rows : Int) / 2 ∧ (rows : Int) / 2 ≤ y3 ∧ y4 < (rows : Int)

instance (rows : Nat) (y1 y2 y3 y4 : Int) :
    Decidable (specHalfExtentOK rows y1 y2 y3 y4) := by
  unfold specHalfExtentOK; infer_instance

/-- The 200x200 all-zero image used to refute the image-relative reading. -/
def img200 : List (List ℚ) := List.replicate 200 (List.replicate 200 0)

set_option maxRecDepth 8192 in
/-- C5 counterexample: on a 200-row image, the quadruple `(0,70,150,160)`
is strictly increasing with band 1 inside the first half of the row extent
and band 2 inside the second half, so the claim says it is accepted; the
code still raises its input error, because the bounds `0..63` and
`73..135` are hardcoded numerals, not computed from the image. -/
theorem claim_C5_counterexample :
    specHalfExtentOK img200.length 0 70 150 160 ∧
      ¬ bgValid 0 70 150 160 ∧
      background zeroPF3 img200 0 70 150 160 = .error bgErrMsg := by
  refine ⟨by decide, by decide, by rfl⟩

/-- C5 amended: `background` raises its documented input error if and only
if the boundaries fail the hardcoded check `bgValid`: strictly increasing
with `0 ≤ y1,y2 ≤ 63` and `73 ≤ y3,y4 ≤ 135` — fixed numeric ranges
independent of the image, not the image-relative half-extent ranges the
claim states.  Any other failure of the estimator surfaces as a different
error. -/
theorem claim_C5_amended (pf : PolyFit) (image : List (List ℚ))
    (y1 y2 y3 y4 : Int) :
    background pf image y1 y2 y3 y4 = .error bgErrMsg ↔
      ¬ bgValid y1 y2 y3 y4 := by
  constructor
  · intro h
    by_contra hv
    simp only [background] at h
    rw [if_neg (not_not_intro hv)] at h
    cases hcc : collectCols (backgroundColumn pf image y1 y2 y3 y4)
        (List.range (max image.length (image.headD []).length)) with
    | ok fits => rw [hcc] at h; exact absurd h (by simp)
    | error e =>
      rw [hcc] at h
      simp only [Except.error.injEq] at h
      subst h
      obtain ⟨c, _, hc⟩ := collectCols_error _ _ _ hcc
      rcases backgroundColumn_error pf image y1 y2 y3 y4 c _ hc with h1 | h1 <;>
        revert h1 <;> decide
  · intro hv
    simp only [background]
    rw [if_pos hv]

/-! ## Claim C8: statelessness of the operations -/

theorem lookupG_setG_ne (g : Globals) (k k' : String) (v : GVal)
    (h : k' ≠ k) : lookupG (setG g k v) k' = lookupG g k' := by
  simp only [lookupG, setG]
  rw [List.find?_cons_of_neg _ (by simpa using Ne.symm h)]

/-- Keys outside the names written by the remaining iterations are
untouched by the grid loop. -/
theorem gridLoop_frame (polyxena : List (List ℚ)) :
    ∀ (ps : List (ℚ × ℚ)) (i : Nat) (g : Globals) (k : String),
      (∀ j, j < ps.length → k ∉ gridNames (i + j)) →
      lookupG (gridLoop polyxena i ps g) k = lookupG g k
  | [], _, _, _, _ => rfl
  | (x, y) :: rest, i, g, k, h => by
    have h0 := h 0 (by simp)
    simp only [Nat.add_zero, gridNames, List.mem_cons, List.not_mem_nil,
      or_false, not_or] at h0
    obtain ⟨h1, h2, h3, h4⟩ := h0
    simp only [gridLoop]
    rw [gridLoop_frame polyxena rest (i + 1) _ k (fun j hj => by
      have hj' := h (j + 1) (by simpa using Nat.succ_lt_succ hj)
      have : i + 1 + j = i + (j + 1) := by omega
      rw [this]
      exact hj')]
    rw [lookupG_setG_ne _ _ _ _ h4, lookupG_setG_ne _ _ _ _ h3,
      lookupG_setG_ne _ _ _ _ h2, lookupG_setG_ne _ _ _ _ h1]

/-- C8 counterexample: `polyxenaDisplayGrid` creates module-global
bindings.  Run on one coordinate pair starting from an empty global
namespace, the binding `polyxena_cut1` exists afterwards — the call
modified a binding outside itself, so not every operation is stateless. -/
theorem claim_C8_counterexample :
    lookupG (polyxenaDisplayGrid [[1, 2], [3, 4]] [35] [35] []) "polyxena_cut1" ≠
      lookupG ([] : Globals) "polyxena_cut1" := by
  decide

/-- C8 amended: the data-processing functions are stateless (they are pure
maps from explicit inputs to outputs), and the one exception is the grid
viewer `polyxenaDisplayGrid`, which creates or overwrites exactly the
dynamically named global bindings `polyxena_cut%i`, `plot_cut%i`, `r_%i`,
`c_%i` for `i = 1 .. (number of zipped coordinate pairs)`; every global
binding outside those names is preserved by the call. -/
theorem claim_C8_amended (polyxena : List (List ℚ)) (xs ys : List ℚ)
    (g : Globals) (k : String)
    (h : k ∉ gridKeys (min xs.length ys.length)) :
    lookupG (polyxenaDisplayGrid polyxena xs ys g) k = lookupG g k := by
  unfold polyxenaDisplayGrid
  apply gridLoop_frame
  intro j hj hmem
  apply h
  unfold gridKeys
  rw [List.mem_flatMap]
  refine ⟨j, ?_, by simpa using hmem⟩
  rw [List.mem_range]
  simpa [List.length_zip] using hj

theorem claim_C8_amended_witness :
    ("other_binding" ∉ gridKeys (min ([35] : List ℚ).length ([35] : List ℚ).length)) ∧
      lookupG (polyxenaDisplayGrid [[1, 2], [3, 4]] [35] [35]
        [("other_binding", GVal.figure)]) "other_binding" =
        lookupG [("other_binding", GVal.figure)] "other_binding" :=
  ⟨by decide,
    claim_C8_amended [[1, 2], [3, 4]] [35] [35] [("other_binding", GVal.figure)]
      "other_binding" (by decide)⟩
